import Mathlib

/-!
Verification of the Fyrox editor command module (`editor/src/scene/commands/graph.rs`),
the engine logger (`src/utils/log.rs`) and the point light node (`src/scene/light/point.rs`).

The generational pool, the scene graph wrapper and the script serialization context are
external collaborators of the command module (their code is not part of this excerpt);
they are modelled from the specification's external-interface contract (spec §3, §6, §9).
Everything else is translated directly from the Rust source.

Machine floats (`f32`) only ever flow through these functions unchanged (store, load,
swap, absolute value) — no rounding arithmetic is performed — so float values are
represented by `Rat`, on which those operations are exact.
-/

namespace Fyrox

/-- Modelled from the spec (§9): a `Handle` is a generational index `(index, generation)`. -/
structure Handle where
  index : Nat
  generation : Nat
deriving DecidableEq, Repr

/-- `Handle::NONE`: the default, invalid handle. -/
def Handle.NONE : Handle := ⟨0, 0⟩

/-- Modelled from the spec (§9): a `Ticket` is a proof-of-vacancy token carrying the
same `(index, generation)` pair as the handle whose slot it vacated. -/
structure Ticket where
  index : Nat
  generation : Nat
deriving DecidableEq, Repr

/-- Modelled from the spec (§2, §6): a pool slot is either occupied by a payload,
provisionally vacated by `take_reserve` (not reusable until forgotten), or free. -/
inductive SlotState (T : Type) where
  | occupied (value : T)
  | reserved
  | free
deriving DecidableEq, Repr

/-- Modelled from the spec (§9): an arena slot holding an occupancy generation counter
plus the slot state. -/
structure PoolEntry (T : Type) where
  generation : Nat
  state : SlotState T
deriving DecidableEq, Repr

/-- Modelled from the spec (§2, §6, §9): a generational-index object pool. -/
structure Pool (T : Type) where
  entries : List (PoolEntry T)
deriving DecidableEq, Repr

namespace Pool

variable {T : Type}

/-- Helper for `Pool.add`: spawn the payload into the first free slot (bumping that
slot's generation), or append a fresh slot with generation 1; `i` is the index offset. -/
def addAux (v : T) : List (PoolEntry T) → Nat → List (PoolEntry T) × Handle
  | [], i => ([⟨1, .occupied v⟩], ⟨i, 1⟩)
  | e :: rest, i =>
    match e.state with
    | .free => (⟨e.generation + 1, .occupied v⟩ :: rest, ⟨i, e.generation + 1⟩)
    | _ =>
      let (rest', h) := addAux v rest (i + 1)
      (e :: rest', h)

/-- Modelled from the spec (§6): `add(node) -> Handle` stores the payload in a free
(or fresh) slot and returns its generational handle. -/
def add (p : Pool T) (v : T) : Pool T × Handle :=
  let (es, h) := addAux v p.entries 0
  (⟨es⟩, h)

/-- Modelled from the spec (§9): borrow the payload at a handle; `none` when the slot is
vacant or the generation does not match (a stale handle). -/
def lookup (p : Pool T) (h : Handle) : Option T :=
  match p.entries[h.index]? with
  | some e =>
    match e.state with
    | .occupied v => if e.generation = h.generation then some v else none
    | _ => none
  | none => none

/-- Modelled from the spec (§6): `take_reserve(handle) -> (Ticket, Node)` detaches the
payload, leaves the slot reserved (not reusable), and returns ownership. -/
def takeReserve (p : Pool T) (h : Handle) : Option (Pool T × Ticket × T) :=
  match p.entries[h.index]? with
  | some e =>
    match e.state with
    | .occupied v =>
      if e.generation = h.generation then
        some (⟨p.entries.set h.index ⟨e.generation, .reserved⟩⟩, ⟨h.index, h.generation⟩, v)
      else none
    | _ => none
  | none => none

/-- Modelled from the spec (§6): `put_back(Ticket, Node) -> Handle` restores the payload
into the reserved slot and returns the handle the ticket was issued for. -/
def putBack (p : Pool T) (t : Ticket) (v : T) : Option (Pool T × Handle) :=
  match p.entries[t.index]? with
  | some e =>
    match e.state with
    | .reserved => some (⟨p.entries.set t.index ⟨e.generation, .occupied v⟩⟩, ⟨t.index, e.generation⟩)
    | _ => none
  | none => none

/-- Modelled from the spec (§6): `forget(Ticket)` permanently frees the reserved slot
for reuse, consuming the ticket. -/
def forget (p : Pool T) (t : Ticket) : Option (Pool T) :=
  match p.entries[t.index]? with
  | some e =>
    match e.state with
    | .reserved => some ⟨p.entries.set t.index ⟨e.generation, .free⟩⟩
    | _ => none
  | none => none

end Pool

/-- `f32` values only flow through the verified code unchanged, so they are modelled
exactly by rationals. -/
abbrev F32 := Rat

/-- `Vector3<f32>`. -/
abbrev Vec3 := F32 × F32 × F32

/-- `UnitQuaternion<f32>` (four components; no arithmetic is performed on them). -/
abbrev Quat := F32 × F32 × F32 × F32

/-- Modelled from the spec (§3): a `PropertyValue` is an opaque datum; its concrete
variants play no role in the command semantics. -/
structure PropertyValue where
  data : Int
deriving DecidableEq, Repr

/-- Modelled from the spec (§3): a `Property` is a name+value pair attached to a node. -/
structure Property where
  name : String
  value : PropertyValue
deriving DecidableEq, Repr

/-- Modelled from the spec (§3, §7): a script is represented by its opaque state blob;
only its (de)serialization matters to the commands. -/
abbrev Script := List Nat

/-- Modelled from the spec (§3, §4.2): the local transform decomposition of a node —
position/scale/rotation plus the six pivot/offset fields. -/
structure LocalTransform where
  position : Vec3
  scale : Vec3
  rotation : Quat
  postRotation : Quat
  preRotation : Quat
  rotationOffset : Vec3
  rotationPivot : Vec3
  scalingOffset : Vec3
  scalingPivot : Vec3
deriving DecidableEq, Repr

/-- Modelled from the spec (§3): a graph node — name, tag, visibility, parent relation,
local transform, property list and optional attached script. -/
structure Node where
  name : String
  tag : String
  visibility : Bool
  parent : Handle
  localTransform : LocalTransform
  properties : List Property
  script : Option Script
deriving DecidableEq, Repr

/-- Modelled from the spec (§2): the scene graph, a pool of nodes related by the
`parent` field. -/
structure Graph where
  pool : Pool Node
deriving DecidableEq, Repr

namespace Graph

/-- `graph[handle]` (read): `none` models the panic on a stale/invalid handle. -/
def lookup (g : Graph) (h : Handle) : Option Node :=
  g.pool.lookup h

/-- `graph[handle]` (write): apply `f` to the node at `h`; `none` models the panic on a
stale/invalid handle. -/
def update (g : Graph) (h : Handle) (f : Node → Node) : Option Graph :=
  match g.pool.entries[h.index]? with
  | some e =>
    match e.state with
    | .occupied n =>
      if e.generation = h.generation then
        some ⟨⟨g.pool.entries.set h.index ⟨e.generation, .occupied (f n)⟩⟩⟩
      else none
    | _ => none
  | none => none

/-- Modelled from the spec (§4.3): `Graph::link_nodes(child, parent)` re-parents `child`
under `parent`; both nodes are indexed by the underlying graph, so both handles must be
live. -/
def linkNodes (g : Graph) (child parent : Handle) : Option Graph :=
  if (g.lookup parent).isSome then
    g.update child (fun n => { n with parent := parent })
  else none

/-- Modelled from the spec (§6): `Graph::add_node` spawns the node in the pool. -/
def addNode (g : Graph) (n : Node) : Graph × Handle :=
  let (p, h) := g.pool.add n
  (⟨p⟩, h)

/-- Modelled from the spec (§4.4): `Graph::take_reserve` detaches the node and
implicitly unlinks it from its parent (the extracted node's parent becomes `NONE`). -/
def takeReserve (g : Graph) (h : Handle) : Option (Graph × Ticket × Node) :=
  match g.pool.takeReserve h with
  | some (p, t, n) => some (⟨p⟩, t, { n with parent := Handle.NONE })
  | none => none

/-- Modelled from the spec (§6): `Graph::put_back` restores the node into the reserved
slot, returning the handle the ticket was issued for. -/
def putBack (g : Graph) (t : Ticket) (n : Node) : Option (Graph × Handle) :=
  match g.pool.putBack t n with
  | some (p, h) => some (⟨p⟩, h)
  | none => none

/-- Modelled from the spec (§6): `Graph::forget_ticket(ticket, node)` drops the node and
permanently frees its slot. -/
def forgetTicket (g : Graph) (t : Ticket) (_n : Node) : Option Graph :=
  match g.pool.forget t with
  | some p => some ⟨p⟩
  | none => none

/-- Statement helper: overwrite the slot of a (live) handle with a node value. -/
def setNode (g : Graph) (h : Handle) (n : Node) : Graph :=
  ⟨⟨g.pool.entries.set h.index ⟨h.generation, .occupied n⟩⟩⟩

end Graph

/-- Modelled from the spec (§3, §6, §9): a `SubGraph` is a detached rooted tree carrying
the root's and every descendant's ticket/node pair, reinsertable as one unit with
original handles preserved. -/
structure SubGraph where
  root : Ticket × Node
  descendants : List (Ticket × Node)
deriving DecidableEq, Repr

namespace Graph

/-- Handles of all live nodes whose parent is `p`. -/
def childHandles (g : Graph) (p : Handle) : List Handle :=
  (List.range g.pool.entries.length).filterMap fun i =>
    match g.pool.entries[i]? with
    | some e =>
      match e.state with
      | .occupied n => if n.parent = p then some ⟨i, e.generation⟩ else none
      | _ => none
    | none => none

/-- Fueled breadth-first extraction of every node in the frontier's subtrees,
reserving each slot and collecting the ticket/node pairs. -/
def takeDescendants : Nat → Graph → List Handle → Graph × List (Ticket × Node)
  | 0, g, _ => (g, [])
  | _ + 1, g, [] => (g, [])
  | fuel + 1, g, h :: rest =>
    match g.pool.takeReserve h with
    | some (p, t, n) =>
      let g' : Graph := ⟨p⟩
      let kids := g'.childHandles h
      let (g'', pairs) := takeDescendants fuel g' (rest ++ kids)
      (g'', (t, n) :: pairs)
    | none => takeDescendants fuel g rest

/-- Modelled from the spec (§6): `take_reserve_sub_graph(handle)` detaches the whole
subtree rooted at `handle` (unlinking the root, preserving internal parent links). -/
def takeReserveSubGraph (g : Graph) (root : Handle) : Option (Graph × SubGraph) :=
  match g.takeReserve root with
  | some (g', t, n) =>
    let kids := g'.childHandles root
    let (g'', pairs) := takeDescendants g'.pool.entries.length g' kids
    some (g'', ⟨(t, n), pairs⟩)
  | none => none

/-- Put a list of ticket/node pairs back into their reserved slots. -/
def putPairsBack : Graph → List (Ticket × Node) → Option Graph
  | g, [] => some g
  | g, (t, n) :: rest =>
    match g.putBack t n with
    | some (g', _) => putPairsBack g' rest
    | none => none

/-- Modelled from the spec (§6): `put_sub_graph_back(SubGraph) -> Handle` reinserts the
whole detached tree and returns the root's handle. -/
def putSubGraphBack (g : Graph) (sg : SubGraph) : Option (Graph × Handle) :=
  match g.putBack sg.root.1 sg.root.2 with
  | some (g', h) =>
    match putPairsBack g' sg.descendants with
    | some g'' => some (g'', h)
    | none => none
  | none => none

end Graph

/-- Modelled from the spec (§3): an animation entity, opaque to the command module. -/
abbrev Animation := Nat

/-- Modelled from the spec (§2, §5): the scene visible to commands — the node graph and
the animation pool. The serialization context and resource manager are ambient. -/
structure Scene where
  graph : Graph
  animations : Pool Animation
deriving DecidableEq, Repr

/-! ## Commands (translated from `editor/src/scene/commands/graph.rs`) -/

/-- `MoveNodeCommand` — holds the target node and the old/new position pair. -/
structure MoveNodeCommand where
  node : Handle
  old_position : Vec3
  new_position : Vec3
deriving DecidableEq, Repr

namespace MoveNodeCommand

def new (node : Handle) (old_position new_position : Vec3) : MoveNodeCommand :=
  { node, old_position, new_position }

/-- `MoveNodeCommand::swap`: return the current `new_position` and exchange the two
held values. -/
def swap (c : MoveNodeCommand) : MoveNodeCommand × Vec3 :=
  ({ c with new_position := c.old_position, old_position := c.new_position },
   c.new_position)

/-- `MoveNodeCommand::set_position`. -/
def set_position (c : MoveNodeCommand) (g : Graph) (position : Vec3) : Option Graph :=
  g.update c.node fun n =>
    { n with localTransform := { n.localTransform with position := position } }

/-- `<MoveNodeCommand as Command>::execute`. -/
def execute (c : MoveNodeCommand) (g : Graph) : Option (MoveNodeCommand × Graph) :=
  let (c', position) := c.swap
  match c'.set_position g position with
  | some g' => some (c', g')
  | none => none

/-- `<MoveNodeCommand as Command>::revert`. -/
def revert (c : MoveNodeCommand) (g : Graph) : Option (MoveNodeCommand × Graph) :=
  let (c', position) := c.swap
  match c'.set_position g position with
  | some g' => some (c', g')
  | none => none

end MoveNodeCommand

/-- `ScaleNodeCommand` — holds the target node and the old/new scale pair. -/
structure ScaleNodeCommand where
  node : Handle
  old_scale : Vec3
  new_scale : Vec3
deriving DecidableEq, Repr

namespace ScaleNodeCommand

def new (node : Handle) (old_scale new_scale : Vec3) : ScaleNodeCommand :=
  { node, old_scale, new_scale }

/-- `ScaleNodeCommand::swap`. -/
def swap (c : ScaleNodeCommand) : ScaleNodeCommand × Vec3 :=
  ({ c with new_scale := c.old_scale, old_scale := c.new_scale }, c.new_scale)

/-- `ScaleNodeCommand::set_scale`. -/
def set_scale (c : ScaleNodeCommand) (g : Graph) (scale : Vec3) : Option Graph :=
  g.update c.node fun n =>
    { n with localTransform := { n.localTransform with scale := scale } }

/-- `<ScaleNodeCommand as Command>::execute`. -/
def execute (c : ScaleNodeCommand) (g : Graph) : Option (ScaleNodeCommand × Graph) :=
  let (c', scale) := c.swap
  match c'.set_scale g scale with
  | some g' => some (c', g')
  | none => none

/-- `<ScaleNodeCommand as Command>::revert`. -/
def revert (c : ScaleNodeCommand) (g : Graph) : Option (ScaleNodeCommand × Graph) :=
  let (c', scale) := c.swap
  match c'.set_scale g scale with
  | some g' => some (c', g')
  | none => none

end ScaleNodeCommand

/-- `RotateNodeCommand` — holds the target node and the old/new rotation pair. -/
structure RotateNodeCommand where
  node : Handle
  old_rotation : Quat
  new_rotation : Quat
deriving DecidableEq, Repr

namespace RotateNodeCommand

def new (node : Handle) (old_rotation new_rotation : Quat) : RotateNodeCommand :=
  { node, old_rotation, new_rotation }

/-- `RotateNodeCommand::swap`. -/
def swap (c : RotateNodeCommand) : RotateNodeCommand × Quat :=
  ({ c with new_rotation := c.old_rotation, old_rotation := c.new_rotation },
   c.new_rotation)

/-- `RotateNodeCommand::set_rotation`. -/
def set_rotation (c : RotateNodeCommand) (g : Graph) (rotation : Quat) : Option Graph :=
  g.update c.node fun n =>
    { n with localTransform := { n.localTransform with rotation := rotation } }

/-- `<RotateNodeCommand as Command>::execute`. -/
def execute (c : RotateNodeCommand) (g : Graph) : Option (RotateNodeCommand × Graph) :=
  let (c', rotation) := c.swap
  match c'.set_rotation g rotation with
  | some g' => some (c', g')
  | none => none

/-- `<RotateNodeCommand as Command>::revert`. -/
def revert (c : RotateNodeCommand) (g : Graph) : Option (RotateNodeCommand × Graph) :=
  let (c', rotation) := c.swap
  match c'.set_rotation g rotation with
  | some g' => some (c', g')
  | none => none

end RotateNodeCommand

/-- Modelled from the spec (§4.2): the `define_swap_command!`-generated `SetNameCommand`
(`name_owned`/`set_name`) — swap the held string with the node's name. -/
structure SetNameCommand where
  handle : Handle
  value : String
deriving DecidableEq, Repr

namespace SetNameCommand

/-- Swap helper shared by execute and revert (spec §4.2). -/
def swap (c : SetNameCommand) (g : Graph) : Option (SetNameCommand × Graph) :=
  match g.lookup c.handle with
  | some n =>
    match g.update c.handle (fun m => { m with name := c.value }) with
    | some g' => some ({ c with value := n.name }, g')
    | none => none
  | none => none

def execute (c : SetNameCommand) (g : Graph) : Option (SetNameCommand × Graph) :=
  c.swap g

def revert (c : SetNameCommand) (g : Graph) : Option (SetNameCommand × Graph) :=
  c.swap g

end SetNameCommand

/-- `DeleteNodeCommand` — one node+ticket pair, the node's handle and its recorded
parent. -/
structure DeleteNodeCommand where
  handle : Handle
  ticket : Option Ticket
  node : Option Node
  parent : Handle
deriving DecidableEq, Repr

namespace DeleteNodeCommand

/-- `<DeleteNodeCommand as Command>::execute`: record the current parent, then
take-and-reserve (detach) the node. -/
def execute (c : DeleteNodeCommand) (g : Graph) : Option (DeleteNodeCommand × Graph) :=
  match g.lookup c.handle with
  | some n₀ =>
    match g.takeReserve c.handle with
    | some (g', t, n) =>
      some ({ c with parent := n₀.parent, node := some n, ticket := some t }, g')
    | none => none
  | none => none

/-- `<DeleteNodeCommand as Command>::revert`: put back using the stored ticket, then
re-link to the recorded parent; the `.unwrap()`s panic (`none`) when the pair is
absent. -/
def revert (c : DeleteNodeCommand) (g : Graph) : Option (DeleteNodeCommand × Graph) :=
  match c.ticket, c.node with
  | some t, some n =>
    match g.putBack t n with
    | some (g', h) =>
      match g'.linkNodes h c.parent with
      | some g'' => some ({ c with handle := h, ticket := none, node := none }, g'')
      | none => none
    | none => none
  | _, _ => none

/-- `<DeleteNodeCommand as Command>::finalize`: if a ticket is still held, forget the
ticket/node pair. -/
def finalize (c : DeleteNodeCommand) (g : Graph) : Option (DeleteNodeCommand × Graph) :=
  match c.ticket with
  | some t =>
    match c.node with
    | some n =>
      match g.forgetTicket t n with
      | some g' => some ({ c with ticket := none, node := none }, g')
      | none => none
    | none => none
  | none => some (c, g)

end DeleteNodeCommand

/-- `AddModelCommand` — a freshly imported sub-graph plus its animation set. -/
structure AddModelCommand where
  model : Handle
  animations : List Handle
  sub_graph : Option SubGraph
  animations_container : List (Ticket × Animation)
deriving DecidableEq, Repr

namespace AddModelCommand

/-- `AddModelCommand::new`: `model` and `animations` start at their defaults. -/
def new (sub_graph : SubGraph) (animations_container : List (Ticket × Animation)) :
    AddModelCommand :=
  { model := Handle.NONE
    animations := []
    sub_graph := some sub_graph
    animations_container }

/-- Put every (ticket, animation) pair back into the animation pool, discarding the
returned handles exactly as the `for` loop in the source does. -/
def putAnimationsBack : Pool Animation → List (Ticket × Animation) →
    Option (Pool Animation)
  | p, [] => some p
  | p, (t, a) :: rest =>
    match p.putBack t a with
    | some (p', _) => putAnimationsBack p' rest
    | none => none

/-- Take-reserve each listed animation handle, collecting the pairs. -/
def takeAnimations : Pool Animation → List Handle →
    Option (Pool Animation × List (Ticket × Animation))
  | p, [] => some (p, [])
  | p, h :: rest =>
    match p.takeReserve h with
    | some (p', t, a) =>
      match takeAnimations p' rest with
      | some (p'', pairs) => some (p'', (t, a) :: pairs)
      | none => none
    | none => none

/-- `<AddModelCommand as Command>::execute`: put the sub-graph back (recording the root
handle in `model`) and put back every animation pair, draining the container. -/
def execute (c : AddModelCommand) (s : Scene) : Option (AddModelCommand × Scene) :=
  match c.sub_graph with
  | some sg =>
    match s.graph.putSubGraphBack sg with
    | some (g', root) =>
      match putAnimationsBack s.animations c.animations_container with
      | some ap =>
        some ({ c with model := root, sub_graph := none, animations_container := [] },
              { s with graph := g', animations := ap })
      | none => none
    | none => none
  | none => none

/-- `<AddModelCommand as Command>::revert`: take-reserve the sub-graph rooted at
`model` and take-reserve every handle in the `animations` field. -/
def revert (c : AddModelCommand) (s : Scene) : Option (AddModelCommand × Scene) :=
  match s.graph.takeReserveSubGraph c.model with
  | some (g', sg) =>
    match takeAnimations s.animations c.animations with
    | some (ap, pairs) =>
      some ({ c with sub_graph := some sg, animations_container := pairs },
            { s with graph := g', animations := ap })
    | none => none
  | none => none

end AddModelCommand

/-- `AddNodeCommand` — one node+ticket pair, the assigned handle, the cached display
name and the target parent. -/
structure AddNodeCommand where
  ticket : Option Ticket
  handle : Handle
  node : Option Node
  cached_name : String
  parent : Handle
deriving DecidableEq, Repr

namespace AddNodeCommand

def new (node : Node) (parent : Handle) : AddNodeCommand :=
  { ticket := none
    handle := Handle.NONE
    cached_name := "Add Node " ++ node.name
    node := some node
    parent }

/-- `<AddNodeCommand as Command>::execute`: without a ticket, insert fresh (assigning
`handle`); with a ticket, put back — the returned handle must equal the stored one
(`assert_eq!`, modelled as `none` on violation) — then link under `parent`. -/
def execute (c : AddNodeCommand) (g : Graph) : Option (AddNodeCommand × Graph) :=
  match c.ticket with
  | none =>
    match c.node with
    | some n =>
      let (g₁, h) := g.addNode n
      match g₁.linkNodes h c.parent with
      | some g₂ => some ({ c with node := none, handle := h }, g₂)
      | none => none
    | none => none
  | some t =>
    match c.node with
    | some n =>
      match g.putBack t n with
      | some (g₁, h) =>
        if h = c.handle then
          match g₁.linkNodes c.handle c.parent with
          | some g₂ => some ({ c with ticket := none, node := none }, g₂)
          | none => none
        else none
      | none => none
    | none => none

/-- `<AddNodeCommand as Command>::revert`: take-and-reserve the node at `handle`
(which implicitly unlinks it), storing the resulting ticket+node. -/
def revert (c : AddNodeCommand) (g : Graph) : Option (AddNodeCommand × Graph) :=
  match g.takeReserve c.handle with
  | some (g', t, n) => some ({ c with ticket := some t, node := some n }, g')
  | none => none

/-- `<AddNodeCommand as Command>::finalize`: if a ticket is still held, forget the
ticket/node pair. -/
def finalize (c : AddNodeCommand) (g : Graph) : Option (AddNodeCommand × Graph) :=
  match c.ticket with
  | some t =>
    match c.node with
    | some n =>
      match g.forgetTicket t n with
      | some g' => some ({ c with ticket := none, node := none }, g')
      | none => none
    | none => none
  | none => some (c, g)

end AddNodeCommand

/-- `SetPropertyValueCommand` — swap-style, indexed into the node's property list. -/
structure SetPropertyValueCommand where
  handle : Handle
  index : Nat
  value : PropertyValue
deriving DecidableEq, Repr

namespace SetPropertyValueCommand

/-- `SetPropertyValueCommand::swap`: exchange the held value with
`properties[index].value`; indexing panics (`none`) when the handle or the index is
invalid. -/
def swap (c : SetPropertyValueCommand) (g : Graph) :
    Option (SetPropertyValueCommand × Graph) :=
  match g.lookup c.handle with
  | some n =>
    match n.properties[c.index]? with
    | some p =>
      match g.update c.handle (fun m =>
          { m with properties := m.properties.set c.index { p with value := c.value } }) with
      | some g' => some ({ c with value := p.value }, g')
      | none => none
    | none => none
  | none => none

def execute (c : SetPropertyValueCommand) (g : Graph) :
    Option (SetPropertyValueCommand × Graph) :=
  c.swap g

def revert (c : SetPropertyValueCommand) (g : Graph) :
    Option (SetPropertyValueCommand × Graph) :=
  c.swap g

end SetPropertyValueCommand

/-- Modelled from the spec (§6): binary serialization of an optional script to an
in-memory byte buffer. -/
def serializeOptScript : Option Script → List Nat
  | none => [0]
  | some s => 1 :: s

/-- Modelled from the spec (§6): binary deserialization of an optional script from a
byte buffer; `none` is a data failure (the source `.unwrap()`s it). -/
def deserializeOptScript : List Nat → Option (Option Script)
  | [0] => some none
  | 1 :: rest => some (some rest)
  | _ => none

/-- `SetScriptCommandState` — the four-state machine of `SetScriptCommand`. -/
inductive SetScriptCommandState where
  | Undefined
  | NonExecuted (script : Option Script)
  | Executed
  | Reverted (data : List Nat)
deriving DecidableEq, Repr

/-- `SetScriptCommand` — target node plus machine state. -/
structure SetScriptCommand where
  handle : Handle
  state : SetScriptCommandState
deriving DecidableEq, Repr

namespace SetScriptCommand

def new (handle : Handle) (script : Option Script) : SetScriptCommand :=
  { handle, state := .NonExecuted script }

/-- `<SetScriptCommand as Command>::execute`: borrow the node (panicking on a stale
handle), replace the state with `Executed` and act on the previous state — attach the
held script, or deserialize the blob and attach the result; any other previous state is
`unreachable!`. -/
def execute (c : SetScriptCommand) (g : Graph) : Option (SetScriptCommand × Graph) :=
  match g.lookup c.handle with
  | some _ =>
    match c.state with
    | .NonExecuted script =>
      match g.update c.handle (fun m => { m with script := script }) with
      | some g' => some ({ c with state := .Executed }, g')
      | none => none
    | .Reverted data =>
      match deserializeOptScript data with
      | some script =>
        match g.update c.handle (fun m => { m with script := script }) with
        | some g' => some ({ c with state := .Executed }, g')
        | none => none
      | none => none
    | _ => none
  | none => none

/-- `<SetScriptCommand as Command>::revert`: legal only from `Executed` — take the
script off the node, serialize it to bytes and move to `Reverted{data}`; any other
previous state is `unreachable!`. -/
def revert (c : SetScriptCommand) (g : Graph) : Option (SetScriptCommand × Graph) :=
  match g.lookup c.handle with
  | some n =>
    match c.state with
    | .Executed =>
      match g.update c.handle (fun m => { m with script := none }) with
      | some g' =>
        some ({ c with state := .Reverted (serializeOptScript n.script) }, g')
      | none => none
    | _ => none
  | none => none

end SetScriptCommand

/-! ## Logger (translated from `src/utils/log.rs`) -/

/-- `MessageKind` — information, warning or error, with `repr(u32)` values 0/1/2. -/
inductive MessageKind where
  | Information
  | Warning
  | Error
deriving DecidableEq, Repr

namespace MessageKind

/-- The `kind as u32` cast (`repr(u32)` discriminants). -/
def toU32 : MessageKind → Nat
  | .Information => 0
  | .Warning => 1
  | .Error => 2

/-- `MessageKind::as_str`. -/
def asStr : MessageKind → String
  | .Information => "[INFO]: "
  | .Warning => "[WARNING]: "
  | .Error => "[ERROR]: "

end MessageKind

/-- `LogMessage` — what a listener receives: kind, unprefixed content, and the time
relative to the logger's time origin. -/
structure LogMessage where
  kind : MessageKind
  content : String
  time : Nat
deriving DecidableEq, Repr

/-- `Log` — the logger state: the log file's contents, the verbosity threshold, the
messages delivered to each registered listener channel, and the time origin.
(`Instant::now()` is passed in explicitly as `now`.) -/
structure Log where
  file : List String
  verbosity : MessageKind
  listeners : List (List LogMessage)
  timeOrigin : Nat
deriving DecidableEq, Repr

/-- The logger's observable world: the logger state plus standard output. -/
structure LogWorld where
  log : Log
  stdout : List String
deriving DecidableEq, Repr

namespace Log

/-- `Log::write_internal`: when `kind as u32 >= verbosity as u32`, send a `LogMessage`
(kind, raw content, `now - time_origin`) to every listener, then prepend the kind
prefix and write the result to standard output and the log file; otherwise do
nothing. -/
def writeInternal (w : LogWorld) (now : Nat) (kind : MessageKind) (msg : String) :
    LogWorld :=
  if w.log.verbosity.toU32 ≤ kind.toU32 then
    let m : LogMessage := ⟨kind, msg, now - w.log.timeOrigin⟩
    let prefixed := kind.asStr ++ msg
    { log := { w.log with
        file := w.log.file ++ [prefixed]
        listeners := w.log.listeners.map fun ch => ch ++ [m] }
      stdout := w.stdout ++ [prefixed] }
  else w

/-- `Log::write`: lock the singleton and call `write_internal`. -/
def write (w : LogWorld) (now : Nat) (kind : MessageKind) (msg : String) : LogWorld :=
  writeInternal w now kind msg

end Log

/-! ## Point light (translated from `src/scene/light/point.rs`) -/

/-- Modelled from the spec: `TemplateVariable<T>` — an inheritable value plus its
modification flag; `set` overwrites the value and marks it modified, `new` (and
`From<T>`) store the value unmarked. -/
structure TemplateVariable (α : Type) where
  value : α
  modified : Bool
deriving DecidableEq, Repr

namespace TemplateVariable

def new {α : Type} (v : α) : TemplateVariable α := ⟨v, false⟩

def set {α : Type} (_tv : TemplateVariable α) (v : α) : TemplateVariable α := ⟨v, true⟩

end TemplateVariable

/-- Modelled from the spec: the base light payload, out of scope here. -/
structure BaseLight where
  data : Unit
deriving DecidableEq, Repr

/-- `PointLight` — base light plus shadow bias and radius template variables. -/
structure PointLight where
  base_light : BaseLight
  shadow_bias : TemplateVariable F32
  radius : TemplateVariable F32
deriving DecidableEq, Repr

namespace PointLight

/-- `PointLight::set_radius`: stores `radius.abs()` through the template variable's
setter. -/
def set_radius (l : PointLight) (radius : F32) : PointLight :=
  { l with radius := l.radius.set (abs radius) }

/-- `PointLight::radius()`: dereference the stored template variable. -/
def radiusVal (l : PointLight) : F32 :=
  l.radius.value

end PointLight

/-- Modelled from the spec: the base light builder, out of scope here. -/
structure BaseLightBuilder where
  data : Unit
deriving DecidableEq, Repr

def BaseLightBuilder.build (_b : BaseLightBuilder) : BaseLight := ⟨()⟩

/-- `PointLightBuilder` — declarative construction of a point light. -/
structure PointLightBuilder where
  base_light_builder : BaseLightBuilder
  shadow_bias : F32
  radius : F32
deriving DecidableEq, Repr

namespace PointLightBuilder

/-- `PointLightBuilder::new`: defaults `shadow_bias = 0.025`, `radius = 10.0`. -/
def new (base_light_builder : BaseLightBuilder) : PointLightBuilder :=
  { base_light_builder, shadow_bias := 1 / 40, radius := 10 }

/-- `PointLightBuilder::with_radius`: stores the desired radius unmodified. -/
def with_radius (b : PointLightBuilder) (radius : F32) : PointLightBuilder :=
  { b with radius }

/-- `PointLightBuilder::build_point_light`: the stored values go into the template
variables via `.into()` (no clamping). -/
def build_point_light (b : PointLightBuilder) : PointLight :=
  { base_light := b.base_light_builder.build
    radius := TemplateVariable.new b.radius
    shadow_bias := TemplateVariable.new b.shadow_bias }

end PointLightBuilder

/-! ## Shared helper lemmas -/

/-- Setting a list index to the value it already holds is the identity. -/
theorem listSet_self {α : Type} : ∀ (l : List α) (i : Nat) (a : α),
    l[i]? = some a → l.set i a = l
  | [], i, a, h => by simp at h
  | x :: xs, 0, a, h => by
    simp at h
    simp [List.set, h]
  | x :: xs, i + 1, a, h => by
    simp at h
    simp [List.set, listSet_self xs i a h]

/-- Characterization of a successful graph lookup in terms of the entry list. -/
theorem Graph.lookup_some {g : Graph} {h : Handle} {n : Node} :
    g.lookup h = some n ↔
      g.pool.entries[h.index]? = some ⟨h.generation, .occupied n⟩ := by
  unfold Graph.lookup Pool.lookup
  cases he : g.pool.entries[h.index]? with
  | none => simp
  | some e =>
    cases e with
    | mk gen st =>
      cases st with
      | occupied v =>
        by_cases hg : gen = h.generation
        · subst hg
          simp
        · simp [hg]
      | reserved => simp
      | free => simp

/-- A successful lookup turns `Graph.update` into an explicit entry-list `set`. -/
theorem Graph.update_of_lookup {g : Graph} {h : Handle} {n : Node} (f : Node → Node)
    (hl : g.lookup h = some n) :
    g.update h f = some (g.setNode h (f n)) := by
  rw [Graph.lookup_some] at hl
  unfold Graph.update Graph.setNode
  rw [hl]
  simp

/-- After `Graph.update`, the updated node is what lookup returns. -/
theorem Graph.lookup_after_set {g : Graph} {h : Handle} {n : Node}
    (hl : g.lookup h = some n) (m : Node) :
    (Graph.setNode g h m).lookup h = some m := by
  rw [Graph.lookup_some] at hl ⊢
  unfold Graph.setNode
  simp only
  exact List.getElem?_set_eq_of_lt _ (List.getElem?_eq_some.mp hl).1

/-- A `setNode` at one handle leaves lookups of handles with a different index
unchanged. -/
theorem Graph.lookup_setNode_other {g : Graph} {h h' : Handle} (m : Node)
    (hne : h'.index ≠ h.index) :
    (Graph.setNode g h m).lookup h' = g.lookup h' := by
  unfold Graph.setNode Graph.lookup Pool.lookup
  simp only
  rw [List.getElem?_set_ne (fun he => hne he.symm)]

/-- Pipe helper: feed the (command, graph) result of one operation into the next. -/
def stepThen {σ : Type} (f : σ → Graph → Option (σ × Graph))
    (r : Option (σ × Graph)) : Option (σ × Graph) :=
  r.bind fun p => f p.1 p.2

/-- Observation helper: the local position of node `h` in the graph carried by `r`. -/
def posAfter {σ : Type} (r : Option (σ × Graph)) (h : Handle) : Option Vec3 :=
  r.bind fun p => (p.2.lookup h).map fun n => n.localTransform.position

/-- The node with its local position replaced. -/
def Node.withPosition (n : Node) (p : Vec3) : Node :=
  { n with localTransform := { n.localTransform with position := p } }

@[simp] theorem Node.withPosition_withPosition (n : Node) (p q : Vec3) :
    (n.withPosition p).withPosition q = n.withPosition q := rfl

@[simp] theorem Node.position_withPosition (n : Node) (p : Vec3) :
    (n.withPosition p).localTransform.position = p := rfl

/-- Unfolding `MoveNodeCommand.execute` at a live handle: the old/new pair is swapped
and the node's position becomes the pre-swap `new_position`. -/
theorem MoveNodeCommand.execute_eq_move {c : MoveNodeCommand} {g : Graph} {n : Node}
    (hn : g.lookup c.node = some n) :
    c.execute g = some (⟨c.node, c.new_position, c.old_position⟩,
      Graph.setNode g c.node (n.withPosition c.new_position)) := by
  unfold execute swap set_position Node.withPosition
  dsimp only
  rw [Graph.update_of_lookup _ hn]

/-- `MoveNodeCommand.revert` is the very same operation as `execute`. -/
theorem MoveNodeCommand.revert_eq_execute_move (c : MoveNodeCommand) (g : Graph) :
    c.revert g = c.execute g := rfl

/-- The node with its local scale replaced. -/
def Node.withScale (n : Node) (v : Vec3) : Node :=
  { n with localTransform := { n.localTransform with scale := v } }

/-- The node with its local rotation replaced. -/
def Node.withRotation (n : Node) (q : Quat) : Node :=
  { n with localTransform := { n.localTransform with rotation := q } }

/-- The node with its name replaced. -/
def Node.withName (n : Node) (s : String) : Node :=
  { n with name := s }

/-- Unfolding `ScaleNodeCommand.execute` at a live handle. -/
theorem ScaleNodeCommand.execute_eq_scale {c : ScaleNodeCommand} {g : Graph} {n : Node}
    (hn : g.lookup c.node = some n) :
    c.execute g = some (⟨c.node, c.new_scale, c.old_scale⟩,
      Graph.setNode g c.node (n.withScale c.new_scale)) := by
  unfold execute swap set_scale Node.withScale
  dsimp only
  rw [Graph.update_of_lookup _ hn]

/-- `ScaleNodeCommand.revert` is the very same operation as `execute`. -/
theorem ScaleNodeCommand.revert_eq_execute_scale (c : ScaleNodeCommand) (g : Graph) :
    c.revert g = c.execute g := rfl

/-- Unfolding `RotateNodeCommand.execute` at a live handle. -/
theorem RotateNodeCommand.execute_eq_rotate {c : RotateNodeCommand} {g : Graph} {n : Node}
    (hn : g.lookup c.node = some n) :
    c.execute g = some (⟨c.node, c.new_rotation, c.old_rotation⟩,
      Graph.setNode g c.node (n.withRotation c.new_rotation)) := by
  unfold execute swap set_rotation Node.withRotation
  dsimp only
  rw [Graph.update_of_lookup _ hn]

/-- `RotateNodeCommand.revert` is the very same operation as `execute`. -/
theorem RotateNodeCommand.revert_eq_execute_rotate (c : RotateNodeCommand) (g : Graph) :
    c.revert g = c.execute g := rfl

/-- Unfolding `SetNameCommand.execute` at a live handle. -/
theorem SetNameCommand.execute_eq_name {c : SetNameCommand} {g : Graph} {n : Node}
    (hn : g.lookup c.handle = some n) :
    c.execute g = some (⟨c.handle, n.name⟩,
      Graph.setNode g c.handle (n.withName c.value)) := by
  unfold execute swap Node.withName
  rw [hn, Graph.update_of_lookup _ hn]

/-- `SetNameCommand.revert` is the very same operation as `execute`. -/
theorem SetNameCommand.revert_eq_execute_name (c : SetNameCommand) (g : Graph) :
    c.revert g = c.execute g := rfl

/-- A `setNode` of a live slot leaves every lookup through a different handle
unchanged — also stale handles onto the same slot, whose lookup stays `none`. -/
theorem Graph.lookup_setNode_ne {g : Graph} {h h' : Handle} {n : Node} (m : Node)
    (hl : g.lookup h = some n) (hne : h' ≠ h) :
    (g.setNode h m).lookup h' = g.lookup h' := by
  by_cases hi : h'.index = h.index
  · have hg : h'.generation ≠ h.generation := by
      intro hgen
      exact hne (by cases h; cases h'; simp_all)
    rw [Graph.lookup_some] at hl
    unfold Graph.setNode Graph.lookup Pool.lookup
    simp only
    rw [hi, List.getElem?_set_eq_of_lt _ (List.getElem?_eq_some.mp hl).1, hl]
    simp [Ne.symm hg]
  · exact Graph.lookup_setNode_other m hi

/-- Observation helper: the node at `h` in the graph carried by `r`. -/
def lookupAfter {σ : Type} (r : Option (σ × Graph)) (h : Handle) : Option Node :=
  r.bind fun p => p.2.lookup h

/-- Observation helper: the property list of node `h` in the graph carried by `r`. -/
def propertiesAfter {σ : Type} (r : Option (σ × Graph)) (h : Handle) :
    Option (List Property) :=
  (lookupAfter r h).map fun n => n.properties

/-- Observation helper: the `j`-th property of node `h` in the graph carried by `r`. -/
def propAt {σ : Type} (r : Option (σ × Graph)) (h : Handle) (j : Nat) :
    Option Property :=
  (lookupAfter r h).bind fun n => n.properties[j]?

/-- `SetPropertyValueCommand.revert` is the very same operation as `execute`. -/
theorem SetPropertyValueCommand.revert_eq_execute_prop (c : SetPropertyValueCommand)
    (g : Graph) : c.revert g = c.execute g := rfl

/-- Unfolding `SetPropertyValueCommand.execute` at a live handle and in-range index:
the held value is exchanged with `properties[index].value`. -/
theorem SetPropertyValueCommand.execute_eq_prop {c : SetPropertyValueCommand} {g : Graph}
    {n : Node} {p : Property} (hn : g.lookup c.handle = some n)
    (hp : n.properties[c.index]? = some p) :
    c.execute g = some (⟨c.handle, c.index, p.value⟩,
      Graph.setNode g c.handle
        { n with properties := n.properties.set c.index ⟨p.name, c.value⟩ }) := by
  unfold execute swap
  rw [hn]
  dsimp only
  rw [hp]
  dsimp only
  rw [Graph.update_of_lookup _ hn]

/-- Overwriting a slot with the node it already holds is the identity. -/
theorem Graph.setNode_self {g : Graph} {h : Handle} {n : Node}
    (hl : g.lookup h = some n) : g.setNode h n = g := by
  rw [Graph.lookup_some] at hl
  unfold Graph.setNode
  obtain ⟨⟨es⟩⟩ := g
  simp only at hl ⊢
  rw [listSet_self _ _ _ hl]

/-- Overwriting the same slot twice keeps only the second write. -/
theorem Graph.setNode_setNode (g : Graph) (h : Handle) (m m' : Node) :
    (g.setNode h m).setNode h m' = g.setNode h m' := by
  unfold Graph.setNode
  simp [List.set_set]

/-! ## Claim theorems -/

/-- Claim C8: for every value `r`, after `PointLight::set_radius(r)` the getter
`radius()` returns the absolute value of `r` — the non-negativity clamp via absolute
value is enforced by the node's own setter. -/
theorem pointLight_set_radius_returns_abs (l : PointLight) (r : F32) :
    (l.set_radius r).radiusVal = abs r :=
  rfl

/-- Claim C10: the absolute-value clamp applies only through `set_radius`:
`PointLightBuilder::with_radius(r)` followed by `build_point_light` stores `r`
unmodified, so for every negative `r` the built light's `radius()` returns that
negative value. -/
theorem pointLightBuilder_with_radius_unclamped (b : PointLightBuilder) (r : F32) :
    ((b.with_radius r).build_point_light).radiusVal = r ∧
      (r < 0 → ((b.with_radius r).build_point_light).radiusVal < 0) :=
  ⟨rfl, fun h => h⟩

/-- Witness for C10 at the concrete negative radius `-3`. -/
theorem pointLightBuilder_with_radius_unclamped_witness :
    ((PointLightBuilder.new ⟨()⟩).with_radius (-3)).build_point_light.radiusVal = -3 ∧
      ((PointLightBuilder.new ⟨()⟩).with_radius (-3)).build_point_light.radiusVal < 0 :=
  ⟨(pointLightBuilder_with_radius_unclamped (PointLightBuilder.new ⟨()⟩) (-3)).1,
   (pointLightBuilder_with_radius_unclamped (PointLightBuilder.new ⟨()⟩) (-3)).2
     (by norm_num)⟩

/-- Claim C7: a message whose kind is at or above the verbosity threshold is written to
standard output, appended to the log file, and delivered to every registered listener as
a `LogMessage` carrying the kind, the content, and the timestamp `now - time_origin`;
a message whose kind is below the threshold changes nothing. -/
theorem log_writeInternal_threshold (w : LogWorld) (now : Nat) (kind : MessageKind)
    (msg : String) :
    (w.log.verbosity.toU32 ≤ kind.toU32 →
      (Log.writeInternal w now kind msg).stdout = w.stdout ++ [kind.asStr ++ msg] ∧
      (Log.writeInternal w now kind msg).log.file = w.log.file ++ [kind.asStr ++ msg] ∧
      (Log.writeInternal w now kind msg).log.listeners =
        w.log.listeners.map (fun ch => ch ++ [⟨kind, msg, now - w.log.timeOrigin⟩]) ∧
      (Log.writeInternal w now kind msg).log.verbosity = w.log.verbosity ∧
      (Log.writeInternal w now kind msg).log.timeOrigin = w.log.timeOrigin) ∧
    (kind.toU32 < w.log.verbosity.toU32 → Log.writeInternal w now kind msg = w) := by
  constructor
  · intro h
    simp [Log.writeInternal, h]
  · intro h
    have hlt : ¬ w.log.verbosity.toU32 ≤ kind.toU32 := by omega
    simp [Log.writeInternal, hlt]

/-- Claim C2: for `MoveNodeCommand::new(A, old, new)` on a live node `A`: `execute`
sets `A`'s local position to `new`, a following `revert` sets it back to `old`, and a
second `execute` leaves command and graph exactly (bit-identically) as after the very
first `execute`. -/
theorem moveNode_execute_revert_execute (node : Handle) (oldp newp : Vec3) (g : Graph)
    (n : Node) (hn : g.lookup node = some n) :
    posAfter ((MoveNodeCommand.new node oldp newp).execute g) node = some newp ∧
    posAfter (stepThen MoveNodeCommand.revert
      ((MoveNodeCommand.new node oldp newp).execute g)) node = some oldp ∧
    stepThen MoveNodeCommand.execute (stepThen MoveNodeCommand.revert
      ((MoveNodeCommand.new node oldp newp).execute g)) =
      (MoveNodeCommand.new node oldp newp).execute g ∧
    ((MoveNodeCommand.new node oldp newp).execute g).isSome := by
  have hnew : MoveNodeCommand.new node oldp newp = ⟨node, oldp, newp⟩ := rfl
  rw [hnew]
  have h1 := MoveNodeCommand.execute_eq_move (c := ⟨node, oldp, newp⟩) hn
  dsimp only at h1
  have hl1 : (Graph.setNode g node (n.withPosition newp)).lookup node =
      some (n.withPosition newp) := Graph.lookup_after_set hn _
  have h2 := MoveNodeCommand.execute_eq_move (c := ⟨node, newp, oldp⟩) hl1
  dsimp only at h2
  simp only [Node.withPosition_withPosition] at h2
  have hl2 : ((Graph.setNode g node (n.withPosition newp)).setNode node
      (n.withPosition oldp)).lookup node = some (n.withPosition oldp) :=
    Graph.lookup_after_set hl1 _
  have h3 := MoveNodeCommand.execute_eq_move (c := ⟨node, oldp, newp⟩) hl2
  dsimp only at h3
  simp only [Node.withPosition_withPosition, Graph.setNode_setNode] at h3
  refine ⟨?_, ?_, ?_, ?_⟩
  · rw [h1]
    simp [posAfter, hl1]
  · rw [h1]
    simp only [stepThen, Option.some_bind]
    rw [MoveNodeCommand.revert_eq_execute_move, h2]
    simp [posAfter, hl2]
  · rw [h1]
    simp only [stepThen, Option.some_bind]
    rw [MoveNodeCommand.revert_eq_execute_move, h2]
    simp only [Option.some_bind]
    rw [Graph.setNode_setNode, h3]
  · rw [h1]
    simp

/-- Claim C9: every swap-style field command (Move/Scale/Rotate/SetName) mutates only
the single targeted field of the single node identified by the command's stored handle:
execute leaves every other (live or stale) handle's lookup unchanged and replaces only
the one field of the target node, and revert is the identical operation. -/
theorem swapCommands_touch_only_target_field :
    (∀ (c : MoveNodeCommand) (g : Graph) (n : Node), g.lookup c.node = some n →
      (c.execute g).isSome ∧
      (∀ h', h' ≠ c.node → lookupAfter (c.execute g) h' = g.lookup h') ∧
      lookupAfter (c.execute g) c.node = some (n.withPosition c.new_position) ∧
      (∀ g₂, c.revert g₂ = c.execute g₂)) ∧
    (∀ (c : ScaleNodeCommand) (g : Graph) (n : Node), g.lookup c.node = some n →
      (c.execute g).isSome ∧
      (∀ h', h' ≠ c.node → lookupAfter (c.execute g) h' = g.lookup h') ∧
      lookupAfter (c.execute g) c.node = some (n.withScale c.new_scale) ∧
      (∀ g₂, c.revert g₂ = c.execute g₂)) ∧
    (∀ (c : RotateNodeCommand) (g : Graph) (n : Node), g.lookup c.node = some n →
      (c.execute g).isSome ∧
      (∀ h', h' ≠ c.node → lookupAfter (c.execute g) h' = g.lookup h') ∧
      lookupAfter (c.execute g) c.node = some (n.withRotation c.new_rotation) ∧
      (∀ g₂, c.revert g₂ = c.execute g₂)) ∧
    (∀ (c : SetNameCommand) (g : Graph) (n : Node), g.lookup c.handle = some n →
      (c.execute g).isSome ∧
      (∀ h', h' ≠ c.handle → lookupAfter (c.execute g) h' = g.lookup h') ∧
      lookupAfter (c.execute g) c.handle = some (n.withName c.value) ∧
      (∀ g₂, c.revert g₂ = c.execute g₂)) := by
  refine ⟨fun c g n hn => ?_, fun c g n hn => ?_, fun c g n hn => ?_, fun c g n hn => ?_⟩
  · have h1 := MoveNodeCommand.execute_eq_move hn
    refine ⟨by rw [h1]; rfl, fun h' hne => ?_, ?_, fun g₂ => rfl⟩
    · rw [h1]
      simp only [lookupAfter, Option.some_bind]
      exact Graph.lookup_setNode_ne _ hn hne
    · rw [h1]
      simp only [lookupAfter, Option.some_bind]
      exact Graph.lookup_after_set hn _
  · have h1 := ScaleNodeCommand.execute_eq_scale hn
    refine ⟨by rw [h1]; rfl, fun h' hne => ?_, ?_, fun g₂ => rfl⟩
    · rw [h1]
      simp only [lookupAfter, Option.some_bind]
      exact Graph.lookup_setNode_ne _ hn hne
    · rw [h1]
      simp only [lookupAfter, Option.some_bind]
      exact Graph.lookup_after_set hn _
  · have h1 := RotateNodeCommand.execute_eq_rotate hn
    refine ⟨by rw [h1]; rfl, fun h' hne => ?_, ?_, fun g₂ => rfl⟩
    · rw [h1]
      simp only [lookupAfter, Option.some_bind]
      exact Graph.lookup_setNode_ne _ hn hne
    · rw [h1]
      simp only [lookupAfter, Option.some_bind]
      exact Graph.lookup_after_set hn _
  · have h1 := SetNameCommand.execute_eq_name hn
    refine ⟨by rw [h1]; rfl, fun h' hne => ?_, ?_, fun g₂ => rfl⟩
    · rw [h1]
      simp only [lookupAfter, Option.some_bind]
      exact Graph.lookup_setNode_ne _ hn hne
    · rw [h1]
      simp only [lookupAfter, Option.some_bind]
      exact Graph.lookup_after_set hn _

/-- Claim C6: for every node with a property list and every valid index `i`,
`SetPropertyValueCommand` at `i` executed then reverted restores exactly the prior
command and graph (in particular the prior value at index `i`), and execute itself
changes neither the length of the property list, nor the name or value of any property
at another index, nor the name of the property at index `i`, nor any other node. -/
theorem setPropertyValue_execute_revert (c : SetPropertyValueCommand) (g : Graph)
    (n : Node) (p : Property) (hn : g.lookup c.handle = some n)
    (hp : n.properties[c.index]? = some p) :
    (c.execute g).isSome ∧
    stepThen SetPropertyValueCommand.revert (c.execute g) = some (c, g) ∧
    (propertiesAfter (c.execute g) c.handle).map List.length =
      some n.properties.length ∧
    (∀ j, j ≠ c.index → propAt (c.execute g) c.handle j = n.properties[j]?) ∧
    (propAt (c.execute g) c.handle c.index).map Property.name = some p.name ∧
    (∀ h', h' ≠ c.handle → lookupAfter (c.execute g) h' = g.lookup h') := by
  obtain ⟨ch, ci, cv⟩ := c
  dsimp only at hn hp ⊢
  have hlt : ci < n.properties.length := (List.getElem?_eq_some.mp hp).1
  have h1 := SetPropertyValueCommand.execute_eq_prop (c := ⟨ch, ci, cv⟩) hn hp
  dsimp only at h1
  have hl1 : (Graph.setNode g ch
      { n with properties := n.properties.set ci ⟨p.name, cv⟩ }).lookup ch =
      some { n with properties := n.properties.set ci ⟨p.name, cv⟩ } :=
    Graph.lookup_after_set hn _
  have hp1 : (n.properties.set ci ⟨p.name, cv⟩)[ci]? = some ⟨p.name, cv⟩ :=
    List.getElem?_set_eq_of_lt _ hlt
  have h2 := SetPropertyValueCommand.execute_eq_prop (c := ⟨ch, ci, p.value⟩) hl1 hp1
  dsimp only at h2
  refine ⟨by rw [h1]; rfl, ?_, ?_, ?_, ?_, ?_⟩
  · rw [h1]
    simp only [stepThen, Option.some_bind]
    rw [SetPropertyValueCommand.revert_eq_execute_prop, h2]
    rw [Graph.setNode_setNode]
    have hps : (n.properties.set ci ⟨p.name, cv⟩).set ci ⟨p.name, p.value⟩ =
        n.properties := by
      rw [List.set_set]
      exact listSet_self _ _ _ hp
    rw [hps]
    rw [Graph.setNode_self hn]
  · rw [h1]
    simp only [propertiesAfter, lookupAfter, Option.some_bind]
    rw [hl1]
    simp
  · intro j hj
    rw [h1]
    simp only [propAt, lookupAfter, Option.some_bind]
    rw [hl1]
    simp only [Option.some_bind]
    exact List.getElem?_set_ne (fun he => hj he.symm)
  · rw [h1]
    simp only [propAt, lookupAfter, Option.some_bind]
    rw [hl1]
    simp only [Option.some_bind]
    rw [hp1]
    rfl
  · intro h' hne
    rw [h1]
    simp only [lookupAfter, Option.some_bind]
    exact Graph.lookup_setNode_ne _ hn hne

/-- A concrete default transform for sample scenes. -/
def sampleTransform : LocalTransform :=
  { position := (0, 0, 0), scale := (1, 1, 1), rotation := (0, 0, 0, 1),
    postRotation := (0, 0, 0, 1), preRotation := (0, 0, 0, 1),
    rotationOffset := (0, 0, 0), rotationPivot := (0, 0, 0),
    scalingOffset := (0, 0, 0), scalingPivot := (0, 0, 0) }

/-- A concrete node with a given name, at the origin, without properties or script. -/
def sampleNode (nm : String) : Node :=
  { name := nm, tag := "", visibility := true, parent := Handle.NONE,
    localTransform := sampleTransform, properties := [], script := none }

/-- Handle of the sample root node (slot 0, generation 1). -/
def hRoot : Handle := ⟨0, 1⟩

/-- Handle of the sample node `A` (slot 1, generation 1). -/
def hNodeA : Handle := ⟨1, 1⟩

/-- A concrete two-node scene graph: a root node and a node `A` linked under it. -/
def sampleGraph : Graph :=
  ⟨⟨[⟨1, .occupied (sampleNode "root")⟩,
     ⟨1, .occupied { sampleNode "A" with parent := hRoot }⟩]⟩⟩

/-- Claim C4: `SetScriptCommand` follows exactly the four-state machine — execute from
`NonExecuted{script}` attaches the held script and moves to `Executed`; execute from
`Reverted{data}` deserializes the blob, attaches the result and moves to `Executed`;
revert is legal only from `Executed`, where it removes the node's script, serializes it
and moves to `Reverted{data}`; every other (state, operation) pair hits the fatal arm;
and no successful operation ever leaves the machine resting in `Undefined` (so no legal
alternating sequence from `NonExecuted` observes it); serialization round-trips. -/
theorem setScript_state_machine :
    (∀ (h : Handle) (g : Graph) (n : Node) (s : Option Script),
      g.lookup h = some n →
      SetScriptCommand.execute ⟨h, .NonExecuted s⟩ g =
        some (⟨h, .Executed⟩, Graph.setNode g h { n with script := s })) ∧
    (∀ (h : Handle) (g : Graph) (n : Node) (d : List Nat) (s : Option Script),
      g.lookup h = some n → deserializeOptScript d = some s →
      SetScriptCommand.execute ⟨h, .Reverted d⟩ g =
        some (⟨h, .Executed⟩, Graph.setNode g h { n with script := s })) ∧
    (∀ (h : Handle) (g : Graph) (n : Node),
      g.lookup h = some n →
      SetScriptCommand.revert ⟨h, .Executed⟩ g =
        some (⟨h, .Reverted (serializeOptScript n.script)⟩,
          Graph.setNode g h { n with script := none })) ∧
    (∀ (h : Handle) (g : Graph) (s : Option Script) (d : List Nat),
      SetScriptCommand.revert ⟨h, .NonExecuted s⟩ g = none ∧
      SetScriptCommand.revert ⟨h, .Reverted d⟩ g = none ∧
      SetScriptCommand.revert ⟨h, .Undefined⟩ g = none ∧
      SetScriptCommand.execute ⟨h, .Executed⟩ g = none ∧
      SetScriptCommand.execute ⟨h, .Undefined⟩ g = none) ∧
    (∀ (c : SetScriptCommand) (g : Graph) (c' : SetScriptCommand) (g' : Graph),
      (c.execute g = some (c', g') ∨ c.revert g = some (c', g')) →
      c'.state ≠ .Undefined) ∧
    (∀ (s : Option Script), deserializeOptScript (serializeOptScript s) = some s) := by
  refine ⟨?_, ?_, ?_, ?_, ?_, ?_⟩
  · intro h g n s hn
    unfold SetScriptCommand.execute
    dsimp only
    rw [hn]
    dsimp only
    rw [Graph.update_of_lookup _ hn]
  · intro h g n d s hn hd
    unfold SetScriptCommand.execute
    dsimp only
    rw [hn]
    dsimp only
    rw [hd]
    dsimp only
    rw [Graph.update_of_lookup _ hn]
  · intro h g n hn
    unfold SetScriptCommand.revert
    dsimp only
    rw [hn]
    dsimp only
    rw [Graph.update_of_lookup _ hn]
  · intro h g s d
    refine ⟨?_, ?_, ?_, ?_, ?_⟩ <;>
      (first
        | (unfold SetScriptCommand.revert; dsimp only; cases g.lookup h <;> rfl)
        | (unfold SetScriptCommand.execute; dsimp only; cases g.lookup h <;> rfl))
  · intro c g c' g' hor
    rcases hor with he | he
    · unfold SetScriptCommand.execute at he
      repeat' split at he
      all_goals (try simp_all)
      all_goals (obtain ⟨hc, -⟩ := he; rw [← hc]; simp)
    · unfold SetScriptCommand.revert at he
      repeat' split at he
      all_goals (try simp_all)
      all_goals (obtain ⟨hc, -⟩ := he; rw [← hc]; simp)
  · intro s
    cases s <;> rfl

/-- Witness for C4 on the concrete sample graph: all three legal transitions at node
`A`, all five illegal ones, the resting-state observation, and a round-trip. -/
theorem setScript_state_machine_witness :
    SetScriptCommand.execute ⟨hNodeA, .NonExecuted (some [5])⟩ sampleGraph =
      some (⟨hNodeA, .Executed⟩, Graph.setNode sampleGraph hNodeA
        { { sampleNode "A" with parent := hRoot } with script := some [5] }) ∧
    SetScriptCommand.execute ⟨hNodeA, .Reverted [1, 7]⟩ sampleGraph =
      some (⟨hNodeA, .Executed⟩, Graph.setNode sampleGraph hNodeA
        { { sampleNode "A" with parent := hRoot } with script := some [7] }) ∧
    SetScriptCommand.revert ⟨hNodeA, .Executed⟩ sampleGraph =
      some (⟨hNodeA, .Reverted [0]⟩, Graph.setNode sampleGraph hNodeA
        { { sampleNode "A" with parent := hRoot } with script := none }) ∧
    SetScriptCommand.revert ⟨hNodeA, .NonExecuted (some [5])⟩ sampleGraph = none ∧
    SetScriptCommand.revert ⟨hNodeA, .Reverted [1, 7]⟩ sampleGraph = none ∧
    SetScriptCommand.revert ⟨hNodeA, .Undefined⟩ sampleGraph = none ∧
    SetScriptCommand.execute ⟨hNodeA, .Executed⟩ sampleGraph = none ∧
    SetScriptCommand.execute ⟨hNodeA, .Undefined⟩ sampleGraph = none ∧
    (⟨hNodeA, .Executed⟩ : SetScriptCommand).state ≠ .Undefined ∧
    deserializeOptScript (serializeOptScript (some [9])) = some (some [9]) := by
  have t := setScript_state_machine
  have hA : sampleGraph.lookup hNodeA = some { sampleNode "A" with parent := hRoot } :=
    rfl
  refine ⟨t.1 hNodeA sampleGraph _ (some [5]) hA,
    t.2.1 hNodeA sampleGraph _ [1, 7] (some [7]) hA rfl,
    t.2.2.1 hNodeA sampleGraph _ hA,
    (t.2.2.2.1 hNodeA sampleGraph (some [5]) [1, 7]).1,
    (t.2.2.2.1 hNodeA sampleGraph (some [5]) [1, 7]).2.1,
    (t.2.2.2.1 hNodeA sampleGraph (some [5]) [1, 7]).2.2.1,
    (t.2.2.2.1 hNodeA sampleGraph (some [5]) [1, 7]).2.2.2.1,
    (t.2.2.2.1 hNodeA sampleGraph (some [5]) [1, 7]).2.2.2.2,
    t.2.2.2.2.1 ⟨hNodeA, .NonExecuted (some [5])⟩ sampleGraph ⟨hNodeA, .Executed⟩
      (Graph.setNode sampleGraph hNodeA
        { { sampleNode "A" with parent := hRoot } with script := some [5] })
      (Or.inl (t.1 hNodeA sampleGraph _ (some [5]) hA)),
    t.2.2.2.2.2 (some [9])⟩

/-- `Pool.addAux` places the payload at the returned handle's slot, occupied, with the
returned generation. -/
theorem Pool.addAux_entry {T : Type} (v : T) :
    ∀ (l : List (PoolEntry T)) (i : Nat),
      i ≤ (Pool.addAux v l i).2.index ∧
      (Pool.addAux v l i).1[(Pool.addAux v l i).2.index - i]? =
        some ⟨(Pool.addAux v l i).2.generation, .occupied v⟩
  | [], i => by simp [Pool.addAux]
  | e :: rest, i => by
    unfold Pool.addAux
    cases hs : e.state with
    | free => simp
    | occupied w =>
      dsimp only
      obtain ⟨h1, h2⟩ := Pool.addAux_entry v rest (i + 1)
      refine ⟨by omega, ?_⟩
      have hidx : (Pool.addAux v rest (i + 1)).2.index - i =
          ((Pool.addAux v rest (i + 1)).2.index - (i + 1)) + 1 := by omega
      rw [hidx]
      simpa using h2
    | reserved =>
      dsimp only
      obtain ⟨h1, h2⟩ := Pool.addAux_entry v rest (i + 1)
      refine ⟨by omega, ?_⟩
      have hidx : (Pool.addAux v rest (i + 1)).2.index - i =
          ((Pool.addAux v rest (i + 1)).2.index - (i + 1)) + 1 := by omega
      rw [hidx]
      simpa using h2

/-- `Graph.addNode` leaves the new node occupied at the returned handle. -/
theorem Graph.addNode_entry (g : Graph) (n : Node) :
    (g.addNode n).1.pool.entries[(g.addNode n).2.index]? =
      some ⟨(g.addNode n).2.generation, .occupied n⟩ := by
  have h := Pool.addAux_entry n g.pool.entries 0
  unfold Graph.addNode Pool.add
  simpa using h.2

/-- Overwriting a live slot preserves which lookups succeed. -/
theorem Graph.lookup_isSome_setNode {g : Graph} {h : Handle} {n : Node} (m : Node)
    (hl : g.lookup h = some n) (h' : Handle) :
    ((g.setNode h m).lookup h').isSome = (g.lookup h').isSome := by
  by_cases he : h' = h
  · subst he
    rw [Graph.lookup_after_set hl, hl]
    rfl
  · rw [Graph.lookup_setNode_ne m hl he]

/-- After any successful `AddNodeCommand.execute`: the pair is empty, the node sits
occupied at `handle` with its parent field set to `parent`, and the parent is live. -/
theorem AddNodeCommand.execute_post {c : AddNodeCommand} {g : Graph}
    {c' : AddNodeCommand} {g' : Graph} (he : c.execute g = some (c', g')) :
    c'.ticket = none ∧ c'.node = none ∧
    ∃ n, g'.pool.entries[c'.handle.index]? =
        some ⟨c'.handle.generation, .occupied n⟩ ∧
      n.parent = c'.parent ∧ (g'.lookup c'.parent).isSome := by
  unfold execute at he
  cases hct : c.ticket with
  | none =>
    rw [hct] at he
    dsimp only at he
    cases hcn : c.node with
    | none => rw [hcn] at he; exact absurd he (by simp)
    | some n =>
      rw [hcn] at he
      dsimp only at he
      rcases hE : g.addNode n with ⟨g₁, h⟩
      rw [hE] at he
      dsimp only at he
      have hadd := Graph.addNode_entry g n
      rw [hE] at hadd
      dsimp only at hadd
      have hlook : g₁.lookup h = some n := Graph.lookup_some.mpr hadd
      cases hlink : Graph.linkNodes g₁ h c.parent with
      | none => rw [hlink] at he; exact absurd he (by simp)
      | some g₂ =>
        rw [hlink] at he
        dsimp only at he
        rw [Option.some.injEq, Prod.mk.injEq] at he
        obtain ⟨hc', hg'⟩ := he
        subst hc'
        subst hg'
        unfold Graph.linkNodes at hlink
        by_cases hps : (g₁.lookup c.parent).isSome = true
        · rw [if_pos hps, Graph.update_of_lookup _ hlook, Option.some.injEq] at hlink
          subst hlink
          refine ⟨rfl, rfl, { n with parent := c.parent }, ?_, rfl, ?_⟩
          · exact Graph.lookup_some.mp
              (Graph.lookup_after_set hlook { n with parent := c.parent })
          · dsimp only
            rw [Graph.lookup_isSome_setNode _ hlook]
            exact hps
        · rw [if_neg hps] at hlink
          exact absurd hlink (by simp)
  | some t =>
    rw [hct] at he
    dsimp only at he
    cases hcn : c.node with
    | none => rw [hcn] at he; exact absurd he (by simp)
    | some n =>
      rw [hcn] at he
      dsimp only at he
      cases hpb : g.putBack t n with
      | none => rw [hpb] at he; exact absurd he (by simp)
      | some r =>
        obtain ⟨g₁, h'⟩ := r
        rw [hpb] at he
        dsimp only at he
        by_cases hif : h' = c.handle
        · rw [if_pos hif] at he
          subst hif
          unfold Graph.putBack Pool.putBack at hpb
          cases hent : g.pool.entries[t.index]? with
          | none => rw [hent] at hpb; exact absurd hpb (by simp)
          | some e =>
            rw [hent] at hpb
            dsimp only at hpb
            cases hst : e.state with
            | occupied w => rw [hst] at hpb; exact absurd hpb (by simp)
            | free => rw [hst] at hpb; exact absurd hpb (by simp)
            | reserved =>
              rw [hst] at hpb
              dsimp only at hpb
              rw [Option.some.injEq, Prod.mk.injEq] at hpb
              obtain ⟨hg₁, hh⟩ := hpb
              have hlt : t.index < g.pool.entries.length :=
                (List.getElem?_eq_some.mp hent).1
              have hent₁ : g₁.pool.entries[c.handle.index]? =
                  some ⟨c.handle.generation, .occupied n⟩ := by
                rw [← hg₁, ← hh]
                dsimp only
                exact List.getElem?_set_eq_of_lt _ hlt
              have hlook : g₁.lookup c.handle = some n := Graph.lookup_some.mpr hent₁
              cases hlink : Graph.linkNodes g₁ c.handle c.parent with
              | none => rw [hlink] at he; exact absurd he (by simp)
              | some g₂ =>
                rw [hlink] at he
                dsimp only at he
                rw [Option.some.injEq, Prod.mk.injEq] at he
                obtain ⟨hc', hg'⟩ := he
                subst hc'
                subst hg'
                unfold Graph.linkNodes at hlink
                by_cases hps : (g₁.lookup c.parent).isSome = true
                · rw [if_pos hps, Graph.update_of_lookup _ hlook,
                    Option.some.injEq] at hlink
                  subst hlink
                  refine ⟨rfl, rfl, { n with parent := c.parent }, ?_, rfl, ?_⟩
                  · exact Graph.lookup_some.mp
                      (Graph.lookup_after_set hlook { n with parent := c.parent })
                  · dsimp only
                    rw [Graph.lookup_isSome_setNode _ hlook]
                    exact hps
                · rw [if_neg hps] at hlink
                  exact absurd hlink (by simp)
        · rw [if_neg hif] at he
          exact absurd he (by simp)

/-- One revert-then-execute cycle of an `AddNodeCommand` (with the handle-consistency
`assert_eq!` modelled as failure on mismatch). -/
def AddNodeCommand.revertThenExecute (p : AddNodeCommand × Graph) :
    Option (AddNodeCommand × Graph) :=
  (p.1.revert p.2).bind fun q => q.1.execute q.2

/-- `k` revert/execute cycles. -/
def AddNodeCommand.cycles : Nat → AddNodeCommand × Graph →
    Option (AddNodeCommand × Graph)
  | 0, p => some p
  | k + 1, p =>
    match AddNodeCommand.revertThenExecute p with
    | some p' => AddNodeCommand.cycles k p'
    | none => none

/-- From a post-execute state, one revert-then-execute cycle succeeds (in particular
the `assert_eq!` holds) and restores the command and graph exactly. -/
theorem AddNodeCommand.cycle_id {c : AddNodeCommand} {g : Graph}
    (ht : c.ticket = none) (hn : c.node = none) (n : Node)
    (hent : g.pool.entries[c.handle.index]? =
      some ⟨c.handle.generation, .occupied n⟩)
    (hpar : n.parent = c.parent) (hps : (g.lookup c.parent).isSome = true) :
    AddNodeCommand.revertThenExecute (c, g) = some (c, g) := by
  have hlook : g.lookup c.handle = some n := Graph.lookup_some.mpr hent
  have hlt : c.handle.index < g.pool.entries.length := (List.getElem?_eq_some.mp hent).1
  unfold revertThenExecute revert Graph.takeReserve Pool.takeReserve
  dsimp only
  rw [hent]
  dsimp only
  rw [if_pos rfl]
  dsimp only [Option.some_bind]
  unfold execute
  dsimp only
  unfold Graph.putBack Pool.putBack
  dsimp only
  rw [List.getElem?_set_eq_of_lt _ hlt]
  dsimp only
  have hh : (⟨c.handle.index, c.handle.generation⟩ : Handle) = c.handle := rfl
  rw [hh, if_pos rfl]
  have hset2 : (⟨⟨(g.pool.entries.set c.handle.index
        ⟨c.handle.generation, .reserved⟩).set c.handle.index
        ⟨c.handle.generation, .occupied { n with parent := Handle.NONE }⟩⟩⟩ : Graph) =
      g.setNode c.handle { n with parent := Handle.NONE } := by
    unfold Graph.setNode
    rw [List.set_set]
  rw [hset2]
  have hlook₃ : (g.setNode c.handle { n with parent := Handle.NONE }).lookup c.handle =
      some { n with parent := Handle.NONE } := Graph.lookup_after_set hlook _
  unfold Graph.linkNodes
  rw [Graph.lookup_isSome_setNode _ hlook, if_pos hps,
    Graph.update_of_lookup _ hlook₃, Graph.setNode_setNode]
  dsimp only
  have hnn : ({ n with parent := c.parent } : Node) = n := by rw [← hpar]
  rw [hnn, Graph.setNode_self hlook]
  have hcc : ({ c with ticket := none, node := none } : AddNodeCommand) = c := by
    obtain ⟨ct, ch, cn, cnm, cp⟩ := c
    dsimp only at ht hn ⊢
    rw [ht, hn]
  rw [hcc]

/-- Claim C3: for `AddNodeCommand`, under the pool contract, re-executing after a
revert puts the node back at the same handle — the `assert_eq!` never fails, and the
node's handle (indeed the whole command/graph pair) is stable across any number of
revert/execute cycles that do not call `finalize`. -/
theorem addNode_handle_stable (c₀ : AddNodeCommand) (g₀ : Graph)
    (c₁ : AddNodeCommand) (g₁ : Graph) (he : c₀.execute g₀ = some (c₁, g₁)) :
    ∀ k, AddNodeCommand.cycles k (c₁, g₁) = some (c₁, g₁) := by
  obtain ⟨ht, hn, n, hent, hpar, hps⟩ := AddNodeCommand.execute_post he
  intro k
  induction k with
  | zero => rfl
  | succ k ih =>
    show (match AddNodeCommand.revertThenExecute (c₁, g₁) with
      | some p' => AddNodeCommand.cycles k p'
      | none => none) = some (c₁, g₁)
    rw [AddNodeCommand.cycle_id ht hn n hent hpar hps]
    exact ih

/-- Claim C5: for `DeleteNodeCommand` and `AddNodeCommand`, under the ticket/node pair
invariant and with the held ticket's slot reserved, `finalize` forgets the ticket/node
pair if and only if a ticket is currently held, leaves the command holding neither
ticket nor node, and a repeated `finalize` is a no-op — so a node left with a ticket is
forgotten exactly once. -/
theorem finalize_forgets_exactly_once :
    (∀ (c : DeleteNodeCommand) (g : Graph),
      (c.ticket.isSome ↔ c.node.isSome) →
      (∀ t n, c.ticket = some t → c.node = some n → (g.forgetTicket t n).isSome) →
      (c.finalize g).isSome ∧
      (∀ c' g', c.finalize g = some (c', g') →
        c'.ticket = none ∧ c'.node = none ∧
        (c.ticket = none → c' = c ∧ g' = g) ∧
        (∀ t n, c.ticket = some t → c.node = some n →
          Graph.forgetTicket g t n = some g') ∧
        c'.finalize g' = some (c', g'))) ∧
    (∀ (c : AddNodeCommand) (g : Graph),
      (c.ticket.isSome ↔ c.node.isSome) →
      (∀ t n, c.ticket = some t → c.node = some n → (g.forgetTicket t n).isSome) →
      (c.finalize g).isSome ∧
      (∀ c' g', c.finalize g = some (c', g') →
        c'.ticket = none ∧ c'.node = none ∧
        (c.ticket = none → c' = c ∧ g' = g) ∧
        (∀ t n, c.ticket = some t → c.node = some n →
          Graph.forgetTicket g t n = some g') ∧
        c'.finalize g' = some (c', g'))) := by
  constructor
  · intro c g hinv hres
    cases hct : c.ticket with
    | none =>
      have hcn : c.node = none := by
        cases hcn : c.node with
        | none => rfl
        | some n => rw [hct, hcn] at hinv; simp at hinv
      unfold DeleteNodeCommand.finalize
      rw [hct]
      refine ⟨rfl, ?_⟩
      intro c' g' hf
      rw [Option.some.injEq, Prod.mk.injEq] at hf
      obtain ⟨hc', hg'⟩ := hf
      subst hc'
      subst hg'
      refine ⟨hct, hcn, fun _ => ⟨rfl, rfl⟩, ?_, ?_⟩
      · intro t n ht
        exact fun _ => absurd ht (by simp)
      · rw [hct]
    | some t =>
      obtain ⟨n, hcn⟩ : ∃ n, c.node = some n := by
        cases hcn : c.node with
        | none => rw [hct, hcn] at hinv; simp at hinv
        | some n => exact ⟨n, rfl⟩
      obtain ⟨g'', hg''⟩ := Option.isSome_iff_exists.mp (hres t n hct hcn)
      unfold DeleteNodeCommand.finalize
      rw [hct]
      dsimp only
      rw [hcn]
      dsimp only
      rw [hg'']
      refine ⟨rfl, ?_⟩
      intro c' g' hf
      rw [Option.some.injEq, Prod.mk.injEq] at hf
      obtain ⟨hc', hg'⟩ := hf
      subst hc'
      subst hg'
      refine ⟨rfl, rfl, ?_, ?_, rfl⟩
      · intro hnone
        exact absurd hnone (by simp)
      · intro t' n' ht' hn'
        rw [Option.some.injEq] at ht' hn'
        subst ht'
        subst hn'
        exact hg''
  · intro c g hinv hres
    cases hct : c.ticket with
    | none =>
      have hcn : c.node = none := by
        cases hcn : c.node with
        | none => rfl
        | some n => rw [hct, hcn] at hinv; simp at hinv
      unfold AddNodeCommand.finalize
      rw [hct]
      refine ⟨rfl, ?_⟩
      intro c' g' hf
      rw [Option.some.injEq, Prod.mk.injEq] at hf
      obtain ⟨hc', hg'⟩ := hf
      subst hc'
      subst hg'
      refine ⟨hct, hcn, fun _ => ⟨rfl, rfl⟩, ?_, ?_⟩
      · intro t n ht
        exact fun _ => absurd ht (by simp)
      · rw [hct]
    | some t =>
      obtain ⟨n, hcn⟩ : ∃ n, c.node = some n := by
        cases hcn : c.node with
        | none => rw [hct, hcn] at hinv; simp at hinv
        | some n => exact ⟨n, rfl⟩
      obtain ⟨g'', hg''⟩ := Option.isSome_iff_exists.mp (hres t n hct hcn)
      unfold AddNodeCommand.finalize
      rw [hct]
      dsimp only
      rw [hcn]
      dsimp only
      rw [hg'']
      refine ⟨rfl, ?_⟩
      intro c' g' hf
      rw [Option.some.injEq, Prod.mk.injEq] at hf
      obtain ⟨hc', hg'⟩ := hf
      subst hc'
      subst hg'
      refine ⟨rfl, rfl, ?_, ?_, rfl⟩
      · intro hnone
        exact absurd hnone (by simp)
      · intro t' n' ht' hn'
        rw [Option.some.injEq] at ht' hn'
        subst ht'
        subst hn'
        exact hg''

/-- A one-slot graph whose slot is reserved (node taken out), and the same graph after
the slot has been forgotten, for the C5 witness. -/
def gReserved : Graph := ⟨⟨[⟨1, .reserved⟩]⟩⟩

/-- The C5 witness graph after forgetting: the slot is free. -/
def gFreed : Graph := ⟨⟨[⟨1, .free⟩]⟩⟩

/-- A delete command still holding its ticket/node pair. -/
def cDelHeld : DeleteNodeCommand := ⟨⟨0, 1⟩, some ⟨0, 1⟩, some (sampleNode "D"), Handle.NONE⟩

/-- The delete command after finalize: neither ticket nor node. -/
def cDelDone : DeleteNodeCommand := ⟨⟨0, 1⟩, none, none, Handle.NONE⟩

/-- An add command still holding its ticket/node pair (added then reverted). -/
def cAddHeld : AddNodeCommand :=
  ⟨some ⟨0, 1⟩, ⟨0, 1⟩, some (sampleNode "D"), "Add Node D", Handle.NONE⟩

/-- The add command after finalize: neither ticket nor node. -/
def cAddDone : AddNodeCommand := ⟨none, ⟨0, 1⟩, none, "Add Node D", Handle.NONE⟩

/-- Witness for C5: on concrete held/done commands over a one-slot graph, finalize
succeeds, really forgets the reserved slot, and repeating it is a no-op. -/
theorem finalize_forgets_exactly_once_witness :
    (cDelHeld.finalize gReserved).isSome ∧
    Graph.forgetTicket gReserved ⟨0, 1⟩ (sampleNode "D") = some gFreed ∧
    cDelDone.finalize gFreed = some (cDelDone, gFreed) ∧
    (cAddHeld.finalize gReserved).isSome ∧
    cAddDone.finalize gFreed = some (cAddDone, gFreed) := by
  have t := finalize_forgets_exactly_once
  have hresD : ∀ t' n', cDelHeld.ticket = some t' → cDelHeld.node = some n' →
      (gReserved.forgetTicket t' n').isSome := by
    intro t' n' ht hn
    simp only [cDelHeld] at ht hn
    rw [Option.some.injEq] at ht hn
    subst ht
    subst hn
    rfl
  have hresA : ∀ t' n', cAddHeld.ticket = some t' → cAddHeld.node = some n' →
      (gReserved.forgetTicket t' n').isSome := by
    intro t' n' ht hn
    simp only [cAddHeld] at ht hn
    rw [Option.some.injEq] at ht hn
    subst ht
    subst hn
    rfl
  have AD := t.1 cDelHeld gReserved (by simp [cDelHeld]) hresD
  have BD := AD.2 cDelDone gFreed rfl
  have AA := t.2 cAddHeld gReserved (by simp [cAddHeld]) hresA
  have BA := AA.2 cAddDone gFreed rfl
  exact ⟨AD.1, BD.2.2.2.1 ⟨0, 1⟩ (sampleNode "D") rfl rfl, BD.2.2.2.2,
    AA.1, BA.2.2.2.2⟩

/-- The C6 witness node: two properties `alpha` and `beta`. -/
def samplePropsNode : Node :=
  { sampleNode "P" with properties := [⟨"alpha", ⟨10⟩⟩, ⟨"beta", ⟨11⟩⟩] }

/-- A concrete one-node graph whose node carries two properties. -/
def sampleGraphProps : Graph :=
  ⟨⟨[⟨1, .occupied samplePropsNode⟩]⟩⟩

/-- The C6 witness command: set property 1 of the node in slot 0 to `99`. -/
def cProp : SetPropertyValueCommand := ⟨⟨0, 1⟩, 1, ⟨99⟩⟩

/-- Witness for C6: on the concrete two-property node, execute+revert is the exact
identity, the list keeps length 2, index 0 is untouched, the name at index 1 stays
`beta`, and an unrelated handle observes nothing. -/
theorem setPropertyValue_execute_revert_witness :
    (cProp.execute sampleGraphProps).isSome ∧
    stepThen SetPropertyValueCommand.revert (cProp.execute sampleGraphProps) =
      some (cProp, sampleGraphProps) ∧
    (propertiesAfter (cProp.execute sampleGraphProps) cProp.handle).map List.length =
      some 2 ∧
    propAt (cProp.execute sampleGraphProps) cProp.handle 0 = some ⟨"alpha", ⟨10⟩⟩ ∧
    (propAt (cProp.execute sampleGraphProps) cProp.handle cProp.index).map
      Property.name = some "beta" ∧
    lookupAfter (cProp.execute sampleGraphProps) ⟨3, 1⟩ =
      sampleGraphProps.lookup ⟨3, 1⟩ := by
  have t := setPropertyValue_execute_revert cProp sampleGraphProps
    samplePropsNode ⟨"beta", ⟨11⟩⟩ rfl rfl
  exact ⟨t.1, t.2.1, t.2.2.1, t.2.2.2.1 0 (by decide), t.2.2.2.2.1,
    t.2.2.2.2.2 ⟨3, 1⟩ (by decide)⟩

/-- Witness for C2 at the concrete scenario of the spec: node `A` at `(0,0,0)` and
`MoveNodeCommand::new(A, (0,0,0), (1,2,3))`. -/
theorem moveNode_execute_revert_execute_witness :
    posAfter ((MoveNodeCommand.new hNodeA (0, 0, 0) (1, 2, 3)).execute sampleGraph)
      hNodeA = some (1, 2, 3) ∧
    posAfter (stepThen MoveNodeCommand.revert
      ((MoveNodeCommand.new hNodeA (0, 0, 0) (1, 2, 3)).execute sampleGraph)) hNodeA =
      some (0, 0, 0) ∧
    stepThen MoveNodeCommand.execute (stepThen MoveNodeCommand.revert
      ((MoveNodeCommand.new hNodeA (0, 0, 0) (1, 2, 3)).execute sampleGraph)) =
      (MoveNodeCommand.new hNodeA (0, 0, 0) (1, 2, 3)).execute sampleGraph ∧
    ((MoveNodeCommand.new hNodeA (0, 0, 0) (1, 2, 3)).execute sampleGraph).isSome :=
  moveNode_execute_revert_execute hNodeA (0, 0, 0) (1, 2, 3) sampleGraph
    { sampleNode "A" with parent := hRoot } rfl

/-- Witness for C9: concrete commands on node `A` of the sample graph leave the root
node untouched and only replace the targeted field of `A`. -/
theorem swapCommands_touch_only_target_field_witness :
    ((MoveNodeCommand.new hNodeA (0, 0, 0) (1, 2, 3)).execute sampleGraph).isSome ∧
    lookupAfter ((MoveNodeCommand.new hNodeA (0, 0, 0) (1, 2, 3)).execute sampleGraph)
      hRoot = sampleGraph.lookup hRoot ∧
    lookupAfter ((MoveNodeCommand.new hNodeA (0, 0, 0) (1, 2, 3)).execute sampleGraph)
      hNodeA = some (({ sampleNode "A" with parent := hRoot }).withPosition (1, 2, 3)) ∧
    lookupAfter ((ScaleNodeCommand.new hNodeA (1, 1, 1) (2, 2, 2)).execute sampleGraph)
      hRoot = sampleGraph.lookup hRoot ∧
    lookupAfter ((RotateNodeCommand.new hNodeA (0, 0, 0, 1) (1, 0, 0, 0)).execute
      sampleGraph) hRoot = sampleGraph.lookup hRoot ∧
    lookupAfter ((SetNameCommand.mk hNodeA "B").execute sampleGraph) hNodeA =
      some (({ sampleNode "A" with parent := hRoot }).withName "B") ∧
    (SetNameCommand.mk hNodeA "B").revert sampleGraph =
      (SetNameCommand.mk hNodeA "B").execute sampleGraph := by
  have hA : sampleGraph.lookup hNodeA = some { sampleNode "A" with parent := hRoot } :=
    rfl
  have t := swapCommands_touch_only_target_field
  have hne : hRoot ≠ hNodeA := by decide
  exact ⟨(t.1 _ sampleGraph _ hA).1,
    (t.1 _ sampleGraph _ hA).2.1 hRoot hne,
    (t.1 _ sampleGraph _ hA).2.2.1,
    (t.2.1 _ sampleGraph _ hA).2.1 hRoot hne,
    (t.2.2.1 _ sampleGraph _ hA).2.1 hRoot hne,
    (t.2.2.2 _ sampleGraph _ hA).2.2.1,
    (t.2.2.2 _ sampleGraph _ hA).2.2.2 sampleGraph⟩

/-- The C3 witness: a fresh `AddNodeCommand` adding node `N` under the sample root. -/
def cAddNew : AddNodeCommand := AddNodeCommand.new (sampleNode "N") hRoot

/-- The C3 witness command after the first execute: handle slot 2, generation 1. -/
def cAddExec : AddNodeCommand := ⟨none, ⟨2, 1⟩, none, "Add Node N", hRoot⟩

/-- The C3 witness graph after the first execute: `N` occupies slot 2, linked under
the root. -/
def gAddExec : Graph :=
  ⟨⟨[⟨1, .occupied (sampleNode "root")⟩,
     ⟨1, .occupied { sampleNode "A" with parent := hRoot }⟩,
     ⟨1, .occupied { sampleNode "N" with parent := hRoot }⟩]⟩⟩

/-- Witness for C3: after concretely executing the fresh command on the sample graph,
two full revert/execute cycles succeed and return the exact same command and graph. -/
theorem addNode_handle_stable_witness :
    AddNodeCommand.cycles 2 (cAddExec, gAddExec) = some (cAddExec, gAddExec) :=
  addNode_handle_stable cAddNew sampleGraph cAddExec gAddExec rfl 2

/-- The C1 scenario, the state right after a model import: a one-node sub-graph whose
slot 0 is reserved, and one (ticket, animation) pair whose animation slot is likewise
reserved. -/
def c1Scene : Scene :=
  { graph := ⟨⟨[⟨1, .reserved⟩]⟩⟩, animations := ⟨[⟨1, .reserved⟩]⟩ }

/-- The C1 command: `AddModelCommand::new` with the one-node sub-graph and one
animation pair. -/
def cModel : AddModelCommand :=
  AddModelCommand.new ⟨(⟨0, 1⟩, sampleNode "model"), []⟩ [(⟨0, 1⟩, 7)]

/-- The handle of the C1 animation (slot 0, generation 1). -/
def hAnim : Handle := ⟨0, 1⟩

/-- The C1 command after execute: the root handle is recorded in `model`, the container
is drained — but `animations` is still empty: the handles returned by `put_back` were
discarded. -/
def cModelExec : AddModelCommand :=
  { model := ⟨0, 1⟩, animations := [], sub_graph := none, animations_container := [] }

/-- The C1 scene after execute: node and animation both live. -/
def c1SceneExec : Scene :=
  { graph := ⟨⟨[⟨1, .occupied (sampleNode "model")⟩]⟩⟩,
    animations := ⟨[⟨1, .occupied 7⟩]⟩ }

/-- The C1 command after revert: the sub-graph is held again, but the recomputed
animation container is empty, since it is built from the never-populated `animations`
field. -/
def cModelRev : AddModelCommand :=
  { model := ⟨0, 1⟩, animations := [], sub_graph := some ⟨(⟨0, 1⟩, sampleNode "model"), []⟩,
    animations_container := [] }

/-- The C1 scene after revert: the node is detached (its slot reserved), but the
animation is still live in the pool. -/
def c1SceneRev : Scene :=
  { graph := ⟨⟨[⟨1, .reserved⟩]⟩⟩, animations := ⟨[⟨1, .occupied 7⟩]⟩ }

/-- Claim C1 (refuted by evaluation — code bug): after `AddModelCommand::execute`, the
animation put back from the constructor's container is live, as the claim states; but
after `revert` its handle still resolves, because `revert` take-reserves the
`animations` field, which is initialized empty at construction and never populated
(`execute` discards the handles returned by `put_back`), instead of the captured
animation handle list the claim and spec require. -/
theorem addModel_revert_leaves_animations_live :
    cModel.execute c1Scene = some (cModelExec, c1SceneExec) ∧
    c1SceneExec.animations.lookup hAnim = some 7 ∧
    cModelExec.animations = [] ∧
    cModelExec.revert c1SceneExec = some (cModelRev, c1SceneRev) ∧
    c1SceneRev.graph.lookup ⟨0, 1⟩ = none ∧
    c1SceneRev.animations.lookup hAnim = some 7 :=
  ⟨rfl, rfl, rfl, rfl, rfl, rfl⟩

/-- A concrete logger world for the C7 witness: verbosity `Warning`, two listeners. -/
def c7World : LogWorld :=
  { log := { file := [], verbosity := .Warning, listeners := [[], []], timeOrigin := 5 }
    stdout := [] }

/-- Witness for C7: an `Error` at verbosity `Warning` reaches the file, stdout and both
listeners; an `Information` message changes nothing. -/
theorem log_writeInternal_threshold_witness :
    ((Log.writeInternal c7World 12 .Error "boom").log.file =
        c7World.log.file ++ [MessageKind.asStr .Error ++ "boom"] ∧
      (Log.writeInternal c7World 12 .Error "boom").log.listeners =
        c7World.log.listeners.map
          (fun ch => ch ++ [⟨.Error, "boom", 12 - c7World.log.timeOrigin⟩])) ∧
    Log.writeInternal c7World 12 .Information "quiet" = c7World :=
  ⟨⟨((log_writeInternal_threshold c7World 12 .Error "boom").1 (by decide)).2.1,
    ((log_writeInternal_threshold c7World 12 .Error "boom").1 (by decide)).2.2.1⟩,
   (log_writeInternal_threshold c7World 12 .Information "quiet").2 (by decide)⟩

end Fyrox
